import Mathlib

/-!
Verification of the deterministic core of `main.py`: the review-store
builder `get_reviews_dict`, the lookup `fetch_restaurant_data` and the
scoring function `calculate_overall_score`, embedded shallowly.

Modelling conventions:
* Python strings are `List Char`; the input file is its list of lines.
* Python exceptions are an explicit error type returned through `Except`.
* `math.sqrt` is `Real.sqrt`, guarded by the sign test under which the
  Python function raises `ValueError: math domain error`; Python floats
  are idealised as real numbers.
* `round(x, 3)` is rounding of `1000 * x` to the nearest integer.  Python
  rounds exact ties half-to-even while `round` rounds them half-up; no
  input considered below lies at an exact tie.
-/

/-- The exceptions the Python code can raise: `ValueError` (with its
message) and `KeyError` (the not-found failure of a dict lookup, the
`NotFoundError` of the specification). -/
inductive PyError where
  | valueError (msg : List Char)
  | keyError
deriving DecidableEq

/-- Message of the length-mismatch `ValueError` explicitly raised by
`calculate_overall_score`. -/
def lenMismatchMsg : List Char :=
  ("food_scores and customer_service_scores must be of the same length.").toList

/-- Message of the `ValueError` Python raises when unpacking a one-element
list into two variables, as `line.strip().split(".", 1)` yields on a line
without a dot. -/
def unpackMsg : List Char :=
  ("not enough values to unpack (expected 2, got 1)").toList

/-- Message of the `ValueError` raised by `math.sqrt` on a negative
argument. -/
def domainMsg : List Char := ("math domain error").toList

/-- The whitespace characters removed by `str.strip()` (its ASCII range;
all inputs in scope are ASCII). -/
def isPySpace (c : Char) : Bool :=
  c = ' ' || c = '\t' || c = '\n' || c = '\r' || c.toNat = 11 || c.toNat = 12

/-- Python `line.strip()`: remove leading and trailing whitespace. -/
def pyStrip (s : List Char) : List Char :=
  ((s.dropWhile isPySpace).reverse.dropWhile isPySpace).reverse

/-- One character of `re.sub("[^0-9a-zA-Z]", " ", s)`: a character outside
`[0-9a-zA-Z]` (codepoint ranges 48-57, 65-90, 97-122) becomes one space. -/
def subNonAlnumChar (c : Char) : Char :=
  if (48 ≤ c.toNat ∧ c.toNat ≤ 57) ∨ (65 ≤ c.toNat ∧ c.toNat ≤ 90) ∨
      (97 ≤ c.toNat ∧ c.toNat ≤ 122) then c else ' '

/-- Modelled from the documented behavior of CPython `str.lower()`, one
character at a time: exact on ASCII (codepoints 65-90 gain 32, all other
ASCII characters are unchanged) and on U+0130 (LATIN CAPITAL LETTER I
WITH DOT ABOVE, codepoint 304) — the single character whose lowercase is
two characters, `i` (105) followed by COMBINING DOT ABOVE (775) — which
witnesses that lowering can change a string's length.  The remaining
non-ASCII lowercase mappings (Latin-1 letters, the Kelvin sign, the
context-sensitive final sigma, ...) are modelled as the identity: no
theorem below evaluates the model on such characters — the universal
statements either hypothesise ASCII input or quantify over an abstract
lowering constrained only by properties CPython's `str.lower` has. -/
def pyLowerChar (c : Char) : List Char :=
  if 65 ≤ c.toNat ∧ c.toNat ≤ 90 then [Char.ofNat (c.toNat + 32)]
  else if c.toNat = 304 then [Char.ofNat 105, Char.ofNat 775]
  else [c]

/-- CPython `str.lower()` on a whole string: each character contributes
its lowercase expansion. -/
def pyLowerStr (s : List Char) : List Char := (s.map pyLowerChar).flatten

/-- The name normalization of `get_reviews_dict`: `restaurant.lower()`
followed by `re.sub("[^0-9a-zA-Z]", " ", restaurant)` (the regex class is
a set of single ASCII characters, so the substitution is one character at
a time also over Unicode). -/
def pyNormalize (s : List Char) : List Char := (pyLowerStr s).map subNonAlnumChar

/-- The same normalization over an arbitrary lowering function, used to
state properties that hold for CPython's full `str.lower()` and not just
for the fragment `pyLowerStr` models. -/
def pyNormalizeWith (lowerF : List Char → List Char) (s : List Char) : List Char :=
  (lowerF s).map subNonAlnumChar

/-- The character class a normalized name consists of: lower-case ASCII
letters (97-122), ASCII digits (48-57), and the space. -/
abbrev isLowerDigitSpace (c : Char) : Prop :=
  (97 ≤ c.toNat ∧ c.toNat ≤ 122) ∨ (48 ≤ c.toNat ∧ c.toNat ≤ 57) ∨ c = ' '

/-- Python `s.split(".", 1)` in the two-field case: split at the first
`.` only.  `none` when the string has no `.` (Python then produces a
single field and the two-variable unpacking raises `ValueError`). -/
def splitFirstDot : List Char → Option (List Char × List Char)
  | [] => none
  | c :: cs =>
    if c = '.' then some ([], cs)
    else (splitFirstDot cs).map (fun p => (c :: p.1, p.2))

/-- The review store `data_dict : dict[str, list[str]]`, as an
insertion-ordered association list with (by construction) unique keys. -/
abbrev ReviewStore := List (List Char × List (List Char))

/-- The dict update of the loop body: `data_dict[restaurant] = [review]`
when the key is absent, `data_dict[restaurant].append(review)` when
present. -/
def dictAppend (d : ReviewStore) (k : List Char) (v : List Char) : ReviewStore :=
  match d with
  | [] => [(k, [v])]
  | (k1, vs) :: rest =>
    if k1 = k then (k1, vs ++ [v]) :: rest else (k1, vs) :: dictAppend rest k v

/-- Python dict indexing `d[k]` before the `KeyError` test: the value at
key `k`, `none` when the key is absent. -/
def dictFind (d : ReviewStore) (k : List Char) : Option (List (List Char)) :=
  match d with
  | [] => none
  | (k1, vs) :: rest => if k1 = k then some vs else dictFind rest k

/-- The body of the `for line in f` loop of `get_reviews_dict` on one
line: strip the line, split on the first `.` (no dot raises the unpacking
`ValueError`), normalize the name, store the review body unchanged. -/
def processLine (d : ReviewStore) (line : List Char) : Except PyError ReviewStore :=
  match splitFirstDot (pyStrip line) with
  | none => .error (.valueError unpackMsg)
  | some (restaurant, review) => .ok (dictAppend d (pyNormalize restaurant) review)

/-- The loop of `get_reviews_dict` over the remaining lines, carrying the
dictionary built so far. -/
def get_reviews_dictAux (d : ReviewStore) : List (List Char) → Except PyError ReviewStore
  | [] => .ok d
  | line :: rest =>
    match processLine d line with
    | .error e => .error e
    | .ok d1 => get_reviews_dictAux d1 rest

/-- `get_reviews_dict`, over the lines of `restaurant-data.txt` (the file
is taken as present; `FileNotFoundError` ends the process and stays
outside the model). -/
def get_reviews_dict (lines : List (List Char)) : Except PyError ReviewStore :=
  get_reviews_dictAux [] lines

/-- `fetch_restaurant_data`: its body is
`get_reviews_dict()[restaurant_name]`, so it rebuilds the dictionary from
the file and then indexes it; an absent key raises `KeyError`. -/
def fetch_restaurant_data (lines : List (List Char)) (restaurant_name : List Char) :
    Except PyError (List (List Char)) :=
  match get_reviews_dict lines with
  | .error e => .error e
  | .ok d =>
    match dictFind d restaurant_name with
    | none => .error .keyError
    | some revs => .ok revs

/-- `get_reviews_dict` with its side effect made explicit: the second
component counts the file opens performed by the call — always 1, the
single `open("restaurant-data.txt", "r")` in its body. -/
def get_reviews_dictCounted (lines : List (List Char)) :
    Except PyError ReviewStore × Nat :=
  (get_reviews_dict lines, 1)

/-- `fetch_restaurant_data` with the file-open count made explicit: the
body calls `get_reviews_dict()` once, so every call performs exactly the
file reads of that call. -/
def fetch_restaurant_dataCounted (lines : List (List Char)) (restaurant_name : List Char) :
    Except PyError (List (List Char)) × Nat :=
  (fetch_restaurant_data lines restaurant_name, (get_reviews_dictCounted lines).2)

/-- Total number of file reads performed by a sequence of lookup calls
made after the store was first built. -/
def totalFileReads (lines : List (List Char)) (names : List (List Char)) : Nat :=
  (names.map (fun nm => (fetch_restaurant_dataCounted lines nm).2)).sum

/-- Python `round(x, 3)` over the reals: `x` rounded to 3 decimal
places. -/
noncomputable def round3 (x : ℝ) : ℝ := (round (x * 1000) : ℤ) / 1000

/-- The accumulation loop of `calculate_overall_score`:
`sum_val += math.sqrt((food_scores[i] ** 2) * customer_service_scores[i])`.
`math.sqrt` of a negative number raises `ValueError: math domain error`. -/
noncomputable def sumSqrtLoop (acc : ℝ) : List (ℤ × ℤ) → Except PyError ℝ
  | [] => .ok acc
  | (f, s) :: rest =>
    if (f ^ 2 * s : ℤ) < 0 then .error (.valueError domainMsg)
    else sumSqrtLoop (acc + Real.sqrt ((f ^ 2 * s : ℤ) : ℝ)) rest

/-- `calculate_overall_score`: the length check, the `N == 0` shortcut
returning `0.000`, the square-root accumulation, the scale
`(1 / (N * math.sqrt(125))) * 10`, and the 3-decimal rounding.  The
returned pair is the single-entry dict `{restaurant_name: score}`. -/
noncomputable def calculate_overall_score (restaurant_name : List Char)
    (food_scores customer_service_scores : List ℤ) :
    Except PyError (List Char × ℝ) :=
  if food_scores.length ≠ customer_service_scores.length then
    .error (.valueError lenMismatchMsg)
  else if food_scores.length = 0 then .ok (restaurant_name, 0)
  else
    match sumSqrtLoop 0 (food_scores.zip customer_service_scores) with
    | .error e => .error e
    | .ok sum_val =>
      .ok (restaurant_name,
        round3 (sum_val * ((1 / ((food_scores.length : ℝ) * Real.sqrt 125)) * 10)))

/-- The score formula as the specification words it:
`(Σ_i sqrt(food_scores[i]^2 * customer_service_scores[i])) * (10 / (N * sqrt 125))`. -/
noncomputable def specRawScore (food_scores customer_service_scores : List ℤ) : ℝ :=
  (((food_scores.zip customer_service_scores).map
      (fun p => Real.sqrt ((p.1 : ℝ) ^ 2 * (p.2 : ℝ)))).sum) *
    (10 / ((food_scores.length : ℝ) * Real.sqrt 125))

/-- The content of the worked example of the specification: two lines,
`Joe's Diner.Food was bad.` and `Joe's Diner.Service was good.` (the
apostrophe is codepoint 39). -/
def joesLine1 : List Char :=
  ("Joe").toList ++ [Char.ofNat 39] ++ ("s Diner.Food was bad.").toList

/-- Second line of the worked example. -/
def joesLine2 : List Char :=
  ("Joe").toList ++ [Char.ofNat 39] ++ ("s Diner.Service was good.").toList

/-- The worked example file, as its list of lines. -/
def joesLines : List (List Char) := [joesLine1, joesLine2]

deriving instance DecidableEq for Except

/-! ### Character-level facts about the normalization -/

theorem toNat_charOfNat_valid (n : ℕ) (h : n.isValidChar) : (Char.ofNat n).toNat = n := by
  unfold Char.ofNat
  rw [dif_pos h]
  unfold Char.ofNatAux Char.toNat
  simp [UInt32.toNat]

theorem subNonAlnumChar_eq_self (c : Char)
    (h : (97 ≤ c.toNat ∧ c.toNat ≤ 122) ∨ (48 ≤ c.toNat ∧ c.toNat ≤ 57)) :
    subNonAlnumChar c = c := by
  unfold subNonAlnumChar
  rw [if_pos]
  rcases h with h | h
  · exact Or.inr (Or.inr h)
  · exact Or.inl h

/-- The substitution of any non-upper-case character lands in the
normalized class: kept characters are then lower-case letters or digits,
everything else becomes a space. -/
theorem subChar_class (d : Char) (hd : ¬(65 ≤ d.toNat ∧ d.toNat ≤ 90)) :
    isLowerDigitSpace (subNonAlnumChar d) := by
  unfold subNonAlnumChar
  split_ifs with h
  · rcases h with h | h | h
    · exact Or.inr (Or.inl h)
    · exact absurd h hd
    · exact Or.inl h
  · exact Or.inr (Or.inr rfl)

/-- Characters of the normalized class are fixed by the substitution. -/
theorem subChar_fixed_of_class (c : Char) (h : isLowerDigitSpace c) :
    subNonAlnumChar c = c := by
  rcases h with h | h | h
  · exact subNonAlnumChar_eq_self c (Or.inl h)
  · exact subNonAlnumChar_eq_self c (Or.inr h)
  · subst h
    decide

/-- No character the lowering produces is an upper-case ASCII letter — a
property CPython's full `str.lower()` also has, since no Unicode
lowercase mapping targets `A`-`Z`. -/
theorem pyLowerChar_no_upper (a : Char) :
    ∀ c ∈ pyLowerChar a, ¬(65 ≤ c.toNat ∧ c.toNat ≤ 90) := by
  intro c hc
  unfold pyLowerChar at hc
  split_ifs at hc with h1 h2
  · rw [List.mem_singleton] at hc
    subst hc
    rw [toNat_charOfNat_valid (a.toNat + 32) (Or.inl (by omega))]
    omega
  · simp only [List.mem_cons, List.not_mem_nil, or_false] at hc
    rcases hc with rfl | rfl
    · decide
    · decide
  · rw [List.mem_singleton] at hc
    subst hc
    exact h1

/-- On ASCII input every character lowers to exactly one character. -/
theorem pyLowerChar_ascii_single (c : Char) (h : c.toNat < 128) :
    ∃ d, pyLowerChar c = [d] := by
  unfold pyLowerChar
  split_ifs with h1 h2
  · exact ⟨_, rfl⟩
  · omega
  · exact ⟨c, rfl⟩

/-- Characters of the normalized class are left alone by the lowering —
as by CPython's `str.lower()`, since they are ASCII and not upper-case. -/
theorem pyLowerChar_class_id (c : Char) (h : isLowerDigitSpace c) :
    pyLowerChar c = [c] := by
  have hn : ¬(65 ≤ c.toNat ∧ c.toNat ≤ 90) := by
    rcases h with h | h | h
    · omega
    · omega
    · subst h
      decide
  have h304 : ¬(c.toNat = 304) := by
    rcases h with h | h | h
    · omega
    · omega
    · subst h
      decide
  unfold pyLowerChar
  rw [if_neg hn, if_neg h304]

theorem pyLowerStr_cons (c : Char) (t : List Char) :
    pyLowerStr (c :: t) = pyLowerChar c ++ pyLowerStr t := by
  simp [pyLowerStr]

/-- The string-level lowering never produces an upper-case ASCII letter
(the first property of CPython's `str.lower()` that idempotence rests
on). -/
theorem pyLowerStr_no_upper (s : List Char) :
    ∀ c ∈ pyLowerStr s, ¬(65 ≤ c.toNat ∧ c.toNat ≤ 90) := by
  intro c hc
  unfold pyLowerStr at hc
  rw [List.mem_flatten] at hc
  obtain ⟨u, hu, hcu⟩ := hc
  rw [List.mem_map] at hu
  obtain ⟨a, _, rfl⟩ := hu
  exact pyLowerChar_no_upper a c hcu

/-- The string-level lowering fixes strings of lower-case letters, digits
and spaces (the second property of CPython's `str.lower()` that
idempotence rests on: such strings contain no cased characters). -/
theorem pyLowerStr_id_of_class (s : List Char)
    (h : ∀ c ∈ s, isLowerDigitSpace c) : pyLowerStr s = s := by
  induction s with
  | nil => rfl
  | cons a t ih =>
    rw [pyLowerStr_cons, pyLowerChar_class_id a (h a (List.mem_cons_self a t)),
      ih (fun c hc => h c (List.mem_cons_of_mem a hc))]
    rfl

theorem map_eq_self_of_fixed (l : List Char) (f : Char → Char)
    (h : ∀ c ∈ l, f c = c) : l.map f = l := by
  induction l with
  | nil => rfl
  | cons a t ih =>
    rw [List.map_cons, h a (List.mem_cons_self a t),
      ih (fun c hc => h c (List.mem_cons_of_mem a hc))]

/-- Claim C8 counterexample: CPython lowers `"İ"` (U+0130, the one
character with a two-character lowercase) to `i` followed by COMBINING
DOT ABOVE, and the substitution turns the combining dot into a space, so
the length-1 input normalizes to the length-2 `"i "` — the claim's
length-preservation over every input string fails. -/
theorem claim_C8_counterexample :
    pyNormalize [Char.ofNat 304] = [Char.ofNat 105, ' '] ∧
      ¬((pyNormalize [Char.ofNat 304]).length = ([Char.ofNat 304] : List Char).length) := by
  constructor
  · decide
  · decide

/-- Claim C8 (amended): for every input string of ASCII characters, the
normalization used by the Review Store build produces only lower-case
ASCII letters (codepoints 97-122), digits (48-57) and spaces, one
character for one, preserving the input's length (spaces are not
collapsed).  Over full Unicode the length clause fails at U+0130 — see
the counterexample. -/
theorem claim_C8 (s : List Char) (hascii : ∀ c ∈ s, c.toNat < 128) :
    (pyNormalize s).length = s.length ∧
      ∀ c ∈ pyNormalize s, isLowerDigitSpace c := by
  induction s with
  | nil =>
    constructor
    · rfl
    · intro c hc
      exact absurd hc (List.not_mem_nil c)
  | cons a t ih =>
    obtain ⟨iht1, iht2⟩ := ih (fun c hc => hascii c (List.mem_cons_of_mem a hc))
    obtain ⟨d, hd⟩ := pyLowerChar_ascii_single a (hascii a (List.mem_cons_self a t))
    have hmem : d ∈ pyLowerChar a := by
      rw [hd]
      exact List.mem_singleton.mpr rfl
    have hnorm : pyNormalize (a :: t) = subNonAlnumChar d :: pyNormalize t := by
      unfold pyNormalize
      rw [pyLowerStr_cons, hd]
      rfl
    rw [hnorm]
    constructor
    · rw [List.length_cons, iht1, List.length_cons]
    · intro c hc
      rcases List.mem_cons.mp hc with rfl | hct
      · exact subChar_class d (pyLowerChar_no_upper a d hmem)
      · exact iht2 c hct

/-- Claim C8 witness: a concrete ASCII input whose normalization keeps
the length, with its first output character in the normalized class. -/
theorem claim_C8_witness :
    (pyNormalize (("Joe 7!").toList)).length = (("Joe 7!").toList).length ∧
      isLowerDigitSpace ('j') :=
  ⟨(claim_C8 (("Joe 7!").toList) (by decide)).1,
    (claim_C8 (("Joe 7!").toList) (by decide)).2 ('j') (by decide)⟩

/-- Claim C9: the normalization is idempotent on every string.  Proved
for the normalization over every lowering that (a) never produces an
upper-case ASCII letter and (b) leaves strings of lower-case letters,
digits and spaces unchanged.  CPython's `str.lower()` has both
properties — no Unicode lowercase mapping targets `A`-`Z`, and strings
over `[a-z0-9 ]` contain no cased characters — so the program's
normalization is an instance, and normalizing an already-normalized key
returns it unchanged. -/
theorem claim_C9 (lowerF : List Char → List Char)
    (hup : ∀ s, ∀ c ∈ lowerF s, ¬(65 ≤ c.toNat ∧ c.toNat ≤ 90))
    (hid : ∀ s, (∀ c ∈ s, isLowerDigitSpace c) → lowerF s = s)
    (s : List Char) :
    pyNormalizeWith lowerF (pyNormalizeWith lowerF s) = pyNormalizeWith lowerF s := by
  have hclass : ∀ c ∈ pyNormalizeWith lowerF s, isLowerDigitSpace c := by
    intro c hc
    unfold pyNormalizeWith at hc
    rw [List.mem_map] at hc
    obtain ⟨d, hd, rfl⟩ := hc
    exact subChar_class d (hup s d hd)
  calc pyNormalizeWith lowerF (pyNormalizeWith lowerF s)
      = (lowerF (pyNormalizeWith lowerF s)).map subNonAlnumChar := rfl
    _ = (pyNormalizeWith lowerF s).map subNonAlnumChar := by
        rw [hid _ hclass]
    _ = pyNormalizeWith lowerF s :=
        map_eq_self_of_fixed _ _ (fun c hc => subChar_fixed_of_class c (hclass c hc))

/-- Claim C9 witness: the idempotence theorem instantiated with the
concrete lowering fragment `pyLowerStr` — so with the build's own
`pyNormalize` — at a string containing U+0130, an upper-case letter and
punctuation. -/
theorem claim_C9_witness :
    pyNormalize (pyNormalize [Char.ofNat 304, ('A'), ('!')]) =
      pyNormalize [Char.ofNat 304, ('A'), ('!')] :=
  claim_C9 pyLowerStr pyLowerStr_no_upper pyLowerStr_id_of_class
    [Char.ofNat 304, ('A'), ('!')]

/-! ### The review store -/

/-- `split(".", 1)` splits exactly at the first dot: on a string of the
form `n ++ "." ++ r` with no dot in `n`, the two fields are `n` and `r`. -/
theorem splitFirstDot_append (n r : List Char) (h : ('.') ∉ n) :
    splitFirstDot (n ++ ('.') :: r) = some (n, r) := by
  induction n with
  | nil => simp [splitFirstDot]
  | cons a t ih =>
    have ha : a ≠ ('.') := fun hc => h (hc ▸ List.mem_cons_self a t)
    have ht : ('.') ∉ t := fun hc => h (List.mem_cons_of_mem a hc)
    show splitFirstDot (a :: (t ++ ('.') :: r)) = some (a :: t, r)
    unfold splitFirstDot
    rw [if_neg ha, ih ht]
    rfl

/-- A string without a dot yields a single field: `splitFirstDot` is
`none`. -/
theorem splitFirstDot_eq_none (s : List Char) (h : ('.') ∉ s) :
    splitFirstDot s = none := by
  induction s with
  | nil => rfl
  | cons a t ih =>
    have ha : a ≠ ('.') := fun hc => h (hc ▸ List.mem_cons_self a t)
    have ht : ('.') ∉ t := fun hc => h (List.mem_cons_of_mem a hc)
    unfold splitFirstDot
    rw [if_neg ha, ih ht]
    rfl

/-- Stripping only removes characters: membership is preserved. -/
theorem mem_of_mem_pyStrip {c : Char} {s : List Char} (h : c ∈ pyStrip s) : c ∈ s := by
  unfold pyStrip at h
  rw [List.mem_reverse] at h
  have h1 := (List.dropWhile_sublist isPySpace).subset h
  rw [List.mem_reverse] at h1
  exact (List.dropWhile_sublist isPySpace).subset h1

theorem processLine_error_eq (d : ReviewStore) (line : List Char) (e : PyError)
    (hp : processLine d line = .error e) : e = .valueError unpackMsg := by
  unfold processLine at hp
  cases hsplit : splitFirstDot (pyStrip line) with
  | none =>
    rw [hsplit] at hp
    injection hp with h
    exact h.symm
  | some p =>
    rw [hsplit] at hp
    simp at hp

/-- A line without a dot makes the whole build fail with the unpacking
`ValueError`, whatever dictionary was accumulated before it. -/
theorem get_reviews_dictAux_error (lines : List (List Char))
    (h : ∃ l ∈ lines, ('.') ∉ l) :
    ∀ d, get_reviews_dictAux d lines = .error (.valueError unpackMsg) := by
  induction lines with
  | nil => simp at h
  | cons a t ih =>
    intro d
    obtain ⟨l, hl, hldot⟩ := h
    unfold get_reviews_dictAux
    rcases List.mem_cons.mp hl with rfl | hlt
    · have hs : splitFirstDot (pyStrip l) = none :=
        splitFirstDot_eq_none _ (fun hc => hldot (mem_of_mem_pyStrip hc))
      unfold processLine
      rw [hs]
    · cases hp : processLine d a with
      | error e => rw [processLine_error_eq d a e hp]
      | ok d1 => exact ih ⟨l, hlt, hldot⟩ d1

/-- Claim C10: a line without a `.` (an empty line included) makes the
Review Store build raise the unhandled unpacking `ValueError`, aborting
the whole load with no mapping returned — in particular the failure is a
`ValueError`, not the `KeyError`/`NotFoundError` of the missing-file
handler, and the malformed line is not skipped. -/
theorem claim_C10 (lines : List (List Char)) (h : ∃ l ∈ lines, ('.') ∉ l) :
    get_reviews_dict lines = .error (.valueError unpackMsg) :=
  get_reviews_dictAux_error lines h []

/-- Claim C10 witness: a file whose second line is empty aborts the build
with the unpacking `ValueError`. -/
theorem claim_C10_witness :
    get_reviews_dict [("A.x").toList, []] = .error (.valueError unpackMsg) :=
  claim_C10 [("A.x").toList, []] ⟨[], by decide, by decide⟩

/-- Claim C3 counterexample: on the spec's example file content the store
maps `"joe s diner"` to `["Food was bad.", "Service was good."]` — the
review bodies keep their final period, so the claimed two-element
sequence `["Food was bad", "Service was good"]` is not what the build
produces. -/
theorem claim_C3_counterexample :
    get_reviews_dict joesLines =
      .ok [(("joe s diner").toList,
            [("Food was bad.").toList, ("Service was good.").toList])] ∧
      ("Food was bad.").toList ≠ ("Food was bad").toList := by
  constructor
  · decide
  · decide

/-- Claim C3 (amended): the build splits each (stripped) line at the
first `.` only, normalizes the name part, and appends the remainder of
the line unchanged — with no further trimming, so interior leading
whitespace and trailing periods of the body are kept; on the example
content the store maps `"joe s diner"` to
`["Food was bad.", "Service was good."]`. -/
theorem claim_C3 :
    (∀ (d : ReviewStore) (n r : List Char), ('.') ∉ n →
        pyStrip (n ++ ('.') :: r) = n ++ ('.') :: r →
        processLine d (n ++ ('.') :: r) = .ok (dictAppend d (pyNormalize n) r)) ∧
      get_reviews_dict joesLines =
        .ok [(("joe s diner").toList,
              [("Food was bad.").toList, ("Service was good.").toList])] := by
  constructor
  · intro d n r hn hs
    unfold processLine
    rw [hs, splitFirstDot_append n r hn]
  · decide

/-- Claim C3 witness: one concrete line, with a body whose leading space
is kept. -/
theorem claim_C3_witness :
    processLine [] (("Cafe X").toList ++ ('.') :: (" ok").toList) =
      .ok [(("cafe x").toList, [(" ok").toList])] := by
  have h := claim_C3.1 [] (("Cafe X").toList) ((" ok").toList) (by decide) (by decide)
  rw [h]
  decide

/-- Claim C4: a restaurant key absent from the built store makes
`fetch_restaurant_data` fail with `KeyError` (the `NotFoundError` of the
spec), which propagates to the caller — it never returns an empty
sequence. -/
theorem claim_C4 (lines : List (List Char)) (name : List Char) (d : ReviewStore)
    (hbuild : get_reviews_dict lines = .ok d) (habsent : dictFind d name = none) :
    fetch_restaurant_data lines name = .error .keyError := by
  unfold fetch_restaurant_data
  rw [hbuild]
  show (match dictFind d name with
    | none => (Except.error PyError.keyError : Except PyError (List (List Char)))
    | some revs => Except.ok revs) = Except.error PyError.keyError
  rw [habsent]

/-- Claim C4 witness: looking up `"zzz"` in a store built from one line
about restaurant `"a"` raises `KeyError`. -/
theorem claim_C4_witness :
    fetch_restaurant_data [("A.good").toList] (("zzz").toList) = .error .keyError :=
  claim_C4 [("A.good").toList] (("zzz").toList)
    [(("a").toList, [("good").toList])] (by decide) (by decide)

/-- One call of `fetch_restaurant_data` performs exactly one file read:
its body re-invokes `get_reviews_dict`, which opens the file. -/
theorem fetch_counted_reads (lines : List (List Char)) (nm : List Char) :
    (fetch_restaurant_dataCounted lines nm).2 = 1 := rfl

/-- Claim C6 counterexample: two lookups on the example store perform two
file reads, not at most one. -/
theorem claim_C6_counterexample :
    totalFileReads joesLines [("joe s diner").toList, ("joe s diner").toList] = 2 ∧
      ¬(2 ≤ 1) := by
  constructor
  · decide
  · decide

/-- Claim C6 (amended): the file read is performed once per lookup call —
`fetch_restaurant_data` rebuilds the store, re-reading the file, on every
call, so a sequence of lookups performs exactly one read per lookup
rather than at most one per process. -/
theorem claim_C6 (lines : List (List Char)) (names : List (List Char)) :
    totalFileReads lines names = names.length := by
  unfold totalFileReads
  induction names with
  | nil => rfl
  | cons a t ih =>
    rw [List.map_cons, List.sum_cons, ih, fetch_counted_reads, List.length_cons]
    omega

/-! ### The score calculator -/

/-- When every term `food^2 * service` is nonnegative the accumulation
loop completes without a domain error and returns the accumulator plus
the sum of the square roots. -/
theorem sumSqrtLoop_ok (pairs : List (ℤ × ℤ)) (h : ∀ p ∈ pairs, 0 ≤ p.1 ^ 2 * p.2) :
    ∀ acc : ℝ, sumSqrtLoop acc pairs =
      .ok (acc + (pairs.map (fun p => Real.sqrt ((p.1 : ℝ) ^ 2 * (p.2 : ℝ)))).sum) := by
  induction pairs with
  | nil =>
    intro acc
    simp [sumSqrtLoop]
  | cons p rest ih =>
    intro acc
    obtain ⟨f, s⟩ := p
    have h0 : ¬((f ^ 2 * s : ℤ) < 0) :=
      not_lt.mpr (h (f, s) (List.mem_cons_self _ _))
    unfold sumSqrtLoop
    rw [if_neg h0, ih (fun q hq => h q (List.mem_cons_of_mem _ hq))]
    rw [List.map_cons, List.sum_cons]
    have hcast : (((f ^ 2 * s : ℤ) : ℝ)) = (f : ℝ) ^ 2 * (s : ℝ) := by
      push_cast
      ring
    rw [hcast]
    congr 1
    ring

/-- `calculate_overall_score` agrees with the specification's formula
whenever the termwise products are nonnegative: equal-length inputs give
`0.000` for empty sequences and otherwise the rounded
`(Σ sqrt(food^2 * service)) * (10 / (N * sqrt 125))`. -/
theorem calculate_overall_score_spec (name : List Char) (fs cs : List ℤ)
    (hlen : fs.length = cs.length) (h : ∀ p ∈ fs.zip cs, 0 ≤ p.1 ^ 2 * p.2) :
    calculate_overall_score name fs cs =
      .ok (name, if fs.length = 0 then 0 else round3 (specRawScore fs cs)) := by
  unfold calculate_overall_score
  rw [if_neg (fun hne => hne hlen)]
  by_cases h0 : fs.length = 0
  · rw [if_pos h0, if_pos h0]
  · rw [if_neg h0]
    simp only [sumSqrtLoop_ok (fs.zip cs) h 0]
    rw [if_neg h0]
    unfold specRawScore
    rw [show (0 + ((fs.zip cs).map
          (fun p => Real.sqrt ((p.1 : ℝ) ^ 2 * (p.2 : ℝ)))).sum) *
          ((1 / ((fs.length : ℝ) * Real.sqrt 125)) * 10) =
        (((fs.zip cs).map (fun p => Real.sqrt ((p.1 : ℝ) ^ 2 * (p.2 : ℝ)))).sum) *
          (10 / ((fs.length : ℝ) * Real.sqrt 125)) from by ring]

theorem sqrt8_bounds : (2.828427 : ℝ) < Real.sqrt 8 ∧ Real.sqrt 8 < 2.828428 := by
  constructor <;>
    nlinarith [Real.sq_sqrt (show (0:ℝ) ≤ 8 by norm_num), Real.sqrt_nonneg 8]

theorem sqrt27_bounds : (5.196152 : ℝ) < Real.sqrt 27 ∧ Real.sqrt 27 < 5.196153 := by
  constructor <;>
    nlinarith [Real.sq_sqrt (show (0:ℝ) ≤ 27 by norm_num), Real.sqrt_nonneg 27]

theorem sqrt125_bounds : (11.180339 : ℝ) < Real.sqrt 125 ∧ Real.sqrt 125 < 11.180340 := by
  constructor <;>
    nlinarith [Real.sq_sqrt (show (0:ℝ) ≤ 125 by norm_num), Real.sqrt_nonneg 125]

/-- Claim C1 (amended): for every identifier and pair of equal-length
integer sequences whose termwise products `food^2 * service` are all
nonnegative (every in-range input qualifies), the function returns the
identifier unchanged mapped to `0.000` when `N = 0` and otherwise to the
spec formula rounded to 3 decimals; in particular the all-fives input
scores exactly `10.000`.  (A negative product instead raises the
`math domain error`, see the counterexample.) -/
theorem claim_C1 :
    (∀ (name : List Char) (fs cs : List ℤ),
        fs.length = cs.length → (∀ p ∈ fs.zip cs, 0 ≤ p.1 ^ 2 * p.2) →
        calculate_overall_score name fs cs =
          .ok (name, if fs.length = 0 then 0 else round3 (specRawScore fs cs))) ∧
      calculate_overall_score (("x").toList) [5, 5, 5] [5, 5, 5] =
        .ok (("x").toList, 10) := by
  refine ⟨calculate_overall_score_spec, ?_⟩
  have h := calculate_overall_score_spec (("x").toList) [5, 5, 5] [5, 5, 5] rfl (by decide)
  rw [h, if_neg (by decide : ¬([5, 5, 5] : List ℤ).length = 0)]
  have hval : specRawScore [5, 5, 5] [5, 5, 5] = 10 := by
    unfold specRawScore
    have hc : Real.sqrt 125 ≠ 0 := ne_of_gt (Real.sqrt_pos.mpr (by norm_num))
    norm_num [List.zip]
    field_simp
    ring
  rw [hval]
  unfold round3
  rw [show ((10 : ℝ) * 1000) = ((10000 : ℤ) : ℝ) by norm_num, round_intCast]
  norm_num

/-- Claim C1 witness: the empty input gives `0.000` and a one-review
input gives the rounded formula value. -/
theorem claim_C1_witness :
    calculate_overall_score (("x").toList) ([] : List ℤ) ([] : List ℤ) =
        .ok (("x").toList, 0) ∧
      calculate_overall_score (("y").toList) [1] [4] =
        .ok (("y").toList, round3 (specRawScore [1] [4])) := by
  constructor
  · have h := claim_C1.1 (("x").toList) [] [] rfl (by decide)
    simpa using h
  · have h := claim_C1.1 (("y").toList) [1] [4] rfl (by decide)
    simpa using h

/-- Claim C1 counterexample: at `food = [1]`, `service = [-1]` — an
equal-length pair of integer sequences — the code raises
`ValueError: math domain error` from `math.sqrt` instead of returning a
score, so the claim quantified over all integer sequences fails. -/
theorem claim_C1_counterexample :
    calculate_overall_score (("x").toList) [1] [-1] =
      .error (.valueError domainMsg) := by
  unfold calculate_overall_score
  rw [if_neg (by decide : ¬([1] : List ℤ).length ≠ ([-1] : List ℤ).length)]
  rw [if_neg (by decide : ¬([1] : List ℤ).length = 0)]
  have hz : ([1] : List ℤ).zip [-1] = [(1, -1)] := rfl
  rw [hz]
  have hloop : sumSqrtLoop 0 [((1 : ℤ), (-1 : ℤ))] = .error (.valueError domainMsg) := by
    unfold sumSqrtLoop
    rw [if_pos (by decide : ((1 : ℤ) ^ 2 * (-1) : ℤ) < 0)]
  rw [hloop]

/-- Claim C7 (amended): no range validation or clamping happens — any
equal-length integer sequences with nonnegative service scores, however
far outside `[1, 5]`, flow through the formula unchanged and without
error.  (A negative service score against a nonzero food score makes
`math.sqrt` raise the domain error, see the counterexample.) -/
theorem claim_C7 (name : List Char) (fs cs : List ℤ)
    (hlen : fs.length = cs.length) (hsv : ∀ p ∈ fs.zip cs, 0 ≤ p.2) :
    calculate_overall_score name fs cs =
      .ok (name, if fs.length = 0 then 0 else round3 (specRawScore fs cs)) :=
  calculate_overall_score_spec name fs cs hlen
    (fun p hp => mul_nonneg (sq_nonneg p.1) (hsv p hp))

/-- Claim C7 witness: the out-of-range scores `[6, 0]` and `[7, 100]`
produce the formula value, unclamped and without error. -/
theorem claim_C7_witness :
    calculate_overall_score (("z").toList) [6, 0] [7, 100] =
      .ok (("z").toList, round3 (specRawScore [6, 0] [7, 100])) := by
  have h := claim_C7 (("z").toList) [6, 0] [7, 100] rfl (by decide)
  simpa using h

/-- Claim C7 counterexample: the out-of-range pair `food = [2]`,
`service = [-3]` does not propagate through the formula — it raises
`ValueError: math domain error`, so the claim quantified over all values
outside `[1, 5]` fails. -/
theorem claim_C7_counterexample :
    calculate_overall_score (("z").toList) [2] [-3] =
      .error (.valueError domainMsg) := by
  unfold calculate_overall_score
  rw [if_neg (by decide : ¬([2] : List ℤ).length ≠ ([-3] : List ℤ).length)]
  rw [if_neg (by decide : ¬([2] : List ℤ).length = 0)]
  have hz : ([2] : List ℤ).zip [-3] = [(2, -3)] := rfl
  rw [hz]
  have hloop : sumSqrtLoop 0 [((2 : ℤ), (-3 : ℤ))] = .error (.valueError domainMsg) := by
    unfold sumSqrtLoop
    rw [if_pos (by decide : ((2 : ℤ) ^ 2 * (-3) : ℤ) < 0)]
  rw [hloop]

/-- On the reference input the spec formula evaluates to
`(9 + sqrt 8 + sqrt 27 + sqrt 125) * 2 / sqrt 125`. -/
theorem specRaw_applebees :
    specRawScore [1, 2, 3, 4, 5] [1, 2, 3, 4, 5] =
      (9 + Real.sqrt 8 + Real.sqrt 27 + Real.sqrt 125) * 2 / Real.sqrt 125 := by
  unfold specRawScore
  have h64 : Real.sqrt 64 = 8 := by
    rw [show (64 : ℝ) = 8 ^ 2 by norm_num, Real.sqrt_sq (by norm_num : (0:ℝ) ≤ 8)]
  norm_num [List.zip]
  rw [h64]
  have hc : Real.sqrt 125 ≠ 0 := ne_of_gt (Real.sqrt_pos.mpr (by norm_num))
  field_simp
  ring

/-- Claim C2: the code evaluated at the reference input.  The exact value
of the implemented formula is `raw = (9 + sqrt 8 + sqrt 27 + sqrt 125) *
2 / sqrt 125 = 5.04544...`, which rounds to `5.045` — not the `5.048`
documented in the code's own example comment and claimed by the spec. -/
theorem claim_C2 :
    calculate_overall_score (("applebee s").toList) [1, 2, 3, 4, 5] [1, 2, 3, 4, 5] =
      .ok (("applebee s").toList, 5045 / 1000) := by
  have h := calculate_overall_score_spec (("applebee s").toList)
    [1, 2, 3, 4, 5] [1, 2, 3, 4, 5] rfl (by decide)
  rw [h, if_neg (by decide : ¬([1, 2, 3, 4, 5] : List ℤ).length = 0), specRaw_applebees]
  have hc : (0 : ℝ) < Real.sqrt 125 := Real.sqrt_pos.mpr (by norm_num)
  obtain ⟨a1, a2⟩ := sqrt8_bounds
  obtain ⟨b1, b2⟩ := sqrt27_bounds
  obtain ⟨c1, c2⟩ := sqrt125_bounds
  unfold round3
  have hX : (9 + Real.sqrt 8 + Real.sqrt 27 + Real.sqrt 125) * 2 / Real.sqrt 125 * 1000 =
      2000 * (9 + Real.sqrt 8 + Real.sqrt 27 + Real.sqrt 125) / Real.sqrt 125 := by
    field_simp
    ring
  rw [hX]
  have h1 : (5044.5 : ℝ) ≤
      2000 * (9 + Real.sqrt 8 + Real.sqrt 27 + Real.sqrt 125) / Real.sqrt 125 := by
    rw [le_div_iff₀ hc]
    nlinarith
  have h2 : 2000 * (9 + Real.sqrt 8 + Real.sqrt 27 + Real.sqrt 125) / Real.sqrt 125 <
      (5045.5 : ℝ) := by
    rw [div_lt_iff₀ hc]
    nlinarith
  have hr : round (2000 * (9 + Real.sqrt 8 + Real.sqrt 27 + Real.sqrt 125) /
      Real.sqrt 125) = 5045 := by
    rw [round_eq, Int.floor_eq_iff]
    constructor
    · push_cast
      linarith
    · push_cast
      linarith
  rw [hr]
  norm_num

/-- Claim C5 (amended): unequal-length inputs always fail with the
`ValueError` before any computation — the result is this error whatever
the element values are, even values that would make the loop raise — but
the message is a fixed string that does not name the two lengths. -/
theorem claim_C5 (name : List Char) (fs cs : List ℤ) (h : fs.length ≠ cs.length) :
    calculate_overall_score name fs cs = .error (.valueError lenMismatchMsg) := by
  unfold calculate_overall_score
  rw [if_pos h]

/-- Claim C5 witness: the mismatched pair `[1, -7, 3]` / `[2]` fails with
the length `ValueError`, although `-7` would raise a domain error had any
computation been attempted. -/
theorem claim_C5_witness :
    calculate_overall_score (("w").toList) [1, -7, 3] [2] =
      .error (.valueError lenMismatchMsg) :=
  claim_C5 (("w").toList) [1, -7, 3] [2] (by decide)

/-- Claim C5 counterexample: the error raised on `[1, 2]` versus `[1]`
carries a message with no digit at all, so it does not name the two
lengths as the claim states. -/
theorem claim_C5_counterexample :
    calculate_overall_score (("x").toList) [1, 2] [1] =
        .error (.valueError lenMismatchMsg) ∧
      lenMismatchMsg.any (fun c => c.isDigit) = false := by
  constructor
  · unfold calculate_overall_score
    rw [if_pos (by decide : ([1, 2] : List ℤ).length ≠ ([1] : List ℤ).length)]
  · decide
